import Mathlib

/-!
Shallow embedding of the training orchestrator in `src/trainer.py`
(class `Trainer`): the initial-dataset collection loop
(`collect_initial_dataset`), the per-component optimization loop
(`train_component`), the per-epoch scheduling of collection, training and
evaluation (`run`, `train_agent`, `test_agent`), and the test collection
(`collect_test`).

The environment and dataset are abstracted: a `world` function gives the
observable dataset statistics (step count, reward histogram) after each
collector call, and test collections are abstracted by the list of episode
returns they produce.  The `while True` collection loop is embedded with
explicit fuel, returning `none` when the fuel runs out (the Python loop
would still be running).  Python `assert` failures are embedded as
`Except.error`.
-/

namespace Diamond

/-- The three named model components: `self._model_names = ["denoiser",
"rew_end_model", "actor_critic"]` (trainer.py line 189). -/
inductive CompName
  | denoiser
  | rew_end_model
  | actor_critic
deriving DecidableEq, Repr

/-- Observable state of `self.train_dataset` after a collector call:
`num_steps` and the reward histogram values `counts_rew`. -/
structure DatasetState where
  num_steps : Nat
  counts_rew : List Nat
deriving DecidableEq, Repr

/-- Embedding of Python `sorted` on a list of naturals: ascending order. -/
def pySorted (l : List Nat) : List Nat := List.insertionSort (· ≤ ·) l

/-- The minority-reward total read in the collection loop:
`sum(sorted(self.train_dataset.counts_rew)[:-1])` (trainer.py line 364) —
every reward-count bucket except the largest one. -/
def minorityRew (d : DatasetState) : Nat :=
  ((pySorted d.counts_rew).dropLast).sum

/-- Configuration `cfg.collection.train` as read by
`collect_initial_dataset` (trainer.py lines 353-357). -/
structure CollectionTrainCfg where
  first_epoch_min : Nat
  first_epoch_max : Option Nat
  threshold_rew : Nat
  steps_per_epoch : Nat
  num_steps_total : Nat
deriving DecidableEq, Repr

/-- The two break conditions of the initial-collection loop (trainer.py
lines 365-369): minority reward total reached `threshold_rew`, or
`max_steps` is set and `num_steps` reached it. -/
def stopInitial (cfg : CollectionTrainCfg) (d : DatasetState) : Bool :=
  (cfg.threshold_rew ≤ minorityRew d) ||
    (match cfg.first_epoch_max with
     | some m => m ≤ d.num_steps
     | none => false)

/-- Fatal configuration errors: the two `assert` statements of
`collect_initial_dataset` (trainer.py lines 358 and 378). -/
inductive ConfigError
  | min_steps_not_divisible
  | remaining_not_divisible
deriving DecidableEq, Repr

/-- The `while True` body of `collect_initial_dataset` (trainer.py lines
360-371), with explicit fuel.  `world i` is the dataset state observed
after the i-th collector call; `i` counts calls made so far and `steps`
is the size of the next collect (initially `min_steps`, then
`steps_per_epoch`).  Returns the list of collect sizes sent and the total
number of collector calls, or `none` when the fuel runs out before a
break condition holds. -/
def initialCollectLoop (cfg : CollectionTrainCfg) (world : Nat → DatasetState) :
    Nat → Nat → Nat → Option (List Nat × Nat)
  | 0, _, _ => none
  | fuel + 1, i, steps =>
    let d := world (i + 1)
    if stopInitial cfg d then some ([steps], i + 1)
    else
      match initialCollectLoop cfg world fuel (i + 1) cfg.steps_per_epoch with
      | none => none
      | some (sizes, n) => some (steps :: sizes, n)

/-- Result of a successful `collect_initial_dataset`: the returned
`num_epochs_collect`, the sizes of the collector calls made, their
number, and the final dataset state. -/
structure InitCollectResult where
  num_epochs_collect : Int
  collectSizes : List Nat
  numCalls : Nat
  finalState : DatasetState
deriving DecidableEq, Repr

/-- Embedding of `Trainer.collect_initial_dataset` (trainer.py lines
350-381): assert `min_steps % steps_per_epoch == 0`; run the collection
loop; assert `(num_steps_total - num_steps) % steps_per_epoch == 0`;
return `remaining_steps // steps_per_epoch`.  `none` means the loop ran
out of fuel (nontermination). -/
def collect_initial_dataset (cfg : CollectionTrainCfg) (world : Nat → DatasetState)
    (fuel : Nat) : Option (Except ConfigError InitCollectResult) :=
  if cfg.first_epoch_min % cfg.steps_per_epoch ≠ 0 then
    some (Except.error ConfigError.min_steps_not_divisible)
  else
    match initialCollectLoop cfg world fuel 0 cfg.first_epoch_min with
    | none => none
    | some (sizes, n) =>
      let d := world n
      let remaining : Int := (cfg.num_steps_total : Int) - (d.num_steps : Int)
      if remaining % (cfg.steps_per_epoch : Int) ≠ 0 then
        some (Except.error ConfigError.remaining_not_divisible)
      else
        some (Except.ok ⟨remaining / (cfg.steps_per_epoch : Int), sizes, n, d⟩)

/-- Per-component training configuration `getattr(cfg, name).training` as
read by `train_agent` and `train_component`. -/
structure ComponentTrainingCfg where
  start_after_epochs : Nat
  steps_first_epoch : Nat
  steps_per_epoch : Nat
  grad_acc_steps : Nat
deriving DecidableEq, Repr

/-- Counters describing one `train_component` call: the computed step
budget `grad_acc_steps * steps` (trainer.py line 447), the number of loop
iterations actually run, and how often the optimizer step, the in-loop
gradient zeroing and the learning-rate-schedule advance fire (lines
460-470; the schedule exists for every component, so it advances with
every optimizer step).  `initial_zero_grad` records the `opt.zero_grad()`
before the loop (line 443). -/
structure TrainComponentStats where
  computed_num_steps : Nat
  iterations : Nat
  initial_zero_grad : Bool
  opt_step_count : Nat
  in_loop_zero_grad_count : Nat
  lr_sched_step_count : Nat
deriving DecidableEq, Repr

/-- Embedding of the loop structure of `Trainer.train_component`
(trainer.py lines 434-476): `num_steps = cfg.grad_acc_steps * steps` is
computed (line 447) and then immediately overwritten by the hardcoded
`num_steps = 1000` (line 449); the loop body applies the optimizer step,
zeroes the gradients and advances the schedule exactly when
`(i + 1) % grad_acc_steps == 0` (line 460). -/
def train_component_model (g : Nat) (steps : Nat) : TrainComponentStats :=
  let computed := g * steps
  let num_steps := 1000
  let applyCount := (List.range num_steps).countP (fun i => (i + 1) % g == 0)
  { computed_num_steps := computed
    iterations := num_steps
    initial_zero_grad := true
    opt_step_count := applyCount
    in_loop_zero_grad_count := applyCount
    lr_sched_step_count := applyCount }

/-- Top-level configuration and process identity as read by `Trainer.run`
and its callees.  `rank` is `self._rank`; flags mirror
`self._is_model_free`, `self._is_static_dataset`, `cfg.training.should`,
`cfg.evaluation.*`, `cfg.collection.test.*`, and the three per-component
training blocks. -/
structure RunConfig where
  rank : Nat
  model_free : Bool
  static_dataset : Bool
  training_should : Bool
  num_final_epochs : Nat
  evaluation_should : Bool
  evaluation_every : Nat
  collection_train : CollectionTrainCfg
  test_num_episodes : Nat
  test_num_final_episodes : Nat
  denoiser : ComponentTrainingCfg
  rew_end_model : ComponentTrainingCfg
  actor_critic : ComponentTrainingCfg
deriving DecidableEq, Repr

/-- The `getattr(self._cfg, name).training` lookup. -/
def componentCfg (cfg : RunConfig) : CompName → ComponentTrainingCfg
  | CompName.denoiser => cfg.denoiser
  | CompName.rew_end_model => cfg.rew_end_model
  | CompName.actor_critic => cfg.actor_critic

/-- Externally visible actions of a run: collector sends to the train and
test collectors, `train_component` and `test_component` invocations, and
the final test collection after the epoch loop. -/
inductive Event
  | collectTrain (steps : Nat)
  | collectTest (episodes : Nat)
  | trainComp (name : CompName) (steps : Nat)
  | testComp (name : CompName)
  | finalCollectTest (episodes : Nat)
deriving DecidableEq, Repr

/-- The component list trained per epoch:
`["actor_critic"] if self._is_model_free else self._model_names`
(trainer.py line 413). -/
def activeModelNames (model_free : Bool) : List CompName :=
  if model_free then [CompName.actor_critic]
  else [CompName.denoiser, CompName.rew_end_model, CompName.actor_critic]

/-- Embedding of `Trainer.train_agent` (trainer.py lines 408-420): for
each active component, when `self.epoch > cfg.start_after_epochs`, call
`train_component` with `steps_first_epoch` if the epoch is 1 and
`steps_per_epoch` otherwise. -/
def train_agent_events (cfg : RunConfig) (epoch : Nat) : List Event :=
  (activeModelNames cfg.model_free).flatMap fun name =>
    let c := componentCfg cfg name
    if c.start_after_epochs < epoch then
      [Event.trainComp name (if epoch = 1 then c.steps_first_epoch else c.steps_per_epoch)]
    else []

/-- Embedding of `Trainer.test_agent` (trainer.py lines 422-432): the
evaluated components are `[] if model_free else self._model_names[:-1]`,
each gated by `start_after_epochs` as in training. -/
def test_agent_events (cfg : RunConfig) (epoch : Nat) : List Event :=
  (if cfg.model_free then ([] : List CompName)
   else [CompName.denoiser, CompName.rew_end_model]).flatMap fun name =>
    if (componentCfg cfg name).start_after_epochs < epoch then [Event.testComp name] else []

/-- The evaluation guard of the epoch loop (trainer.py line 316):
`self._rank == 0 and self._cfg.evaluation.should and
(self.epoch % self._cfg.evaluation.every == 0)`. -/
def should_test_model (cfg : RunConfig) (epoch : Nat) : Bool :=
  (cfg.rank == 0) && cfg.evaluation_should && (epoch % cfg.evaluation_every == 0)

/-- Events of one iteration of the epoch loop (trainer.py lines 292-339):
conditional train collection (line 302), agent training when
`cfg.training.should` (line 311), then conditional test collection and
evaluation (lines 316-325).  `nec` is `self.num_epochs_collect`. -/
def epoch_events (cfg : RunConfig) (nec : Int) (epoch : Nat) : List Event :=
  let should_collect_train :=
    (cfg.rank == 0) && !cfg.model_free && !cfg.static_dataset &&
      ((epoch : Int) ≤ nec)
  (if should_collect_train then [Event.collectTrain cfg.collection_train.steps_per_epoch]
   else []) ++
  (if cfg.training_should then train_agent_events cfg epoch else []) ++
  (let st := should_test_model cfg epoch
   (if st && !cfg.static_dataset then [Event.collectTest cfg.test_num_episodes] else []) ++
   (if st && !cfg.model_free then test_agent_events cfg epoch else []))

/-- The epoch budget of `Trainer.run` (trainer.py lines 287-289): the
computed `self.num_epochs_collect + self._cfg.training.num_final_epochs`
is immediately overwritten by the hardcoded `num_epochs = 2`. -/
def run_num_epochs (nec : Int) (num_final_epochs : Nat) : Nat :=
  let _computed := nec + (num_final_epochs : Int)
  2

/-- Result of a completed `Trainer.run`: the event trace and how many
epoch-loop iterations were executed. -/
structure RunResult where
  events : List Event
  epochs_run : Nat
deriving DecidableEq, Repr

/-- Embedding of `Trainer.run` for a fresh run (`self.epoch = 0`,
trainer.py lines 269-348).  Initial collection is skipped when model-free
or the dataset is static (line 275); otherwise rank 0 runs
`collect_initial_dataset` and every rank adopts the broadcast
`num_epochs_collect` (lines 279-283) — the collector events appear only
on rank 0.  Then the epoch loop runs while `self.epoch < num_epochs`
with the (hardcoded) budget of `run_num_epochs`, and afterwards rank 0
performs the final test collection when the dataset is not static
(lines 341-344). -/
def run_model (cfg : RunConfig) (world : Nat → DatasetState) (fuel : Nat) :
    Option (Except ConfigError RunResult) :=
  let initPart : Option (Except ConfigError (Int × List Event)) :=
    if cfg.model_free || cfg.static_dataset then some (Except.ok (0, []))
    else
      match collect_initial_dataset cfg.collection_train world fuel with
      | none => none
      | some (Except.error e) => some (Except.error e)
      | some (Except.ok r) =>
        some (Except.ok (r.num_epochs_collect,
          if cfg.rank == 0 then r.collectSizes.map Event.collectTrain else []))
  match initPart with
  | none => none
  | some (Except.error e) => some (Except.error e)
  | some (Except.ok (nec, initEvents)) =>
    let numEpochs := run_num_epochs nec cfg.num_final_epochs
    let loopEvents := (List.range' 1 numEpochs).flatMap (epoch_events cfg nec)
    let finalEvents :=
      if (cfg.rank == 0) && !cfg.static_dataset then
        [Event.finalCollectTest cfg.test_num_final_episodes]
      else []
    some (Except.ok ⟨initEvents ++ loopEvents ++ finalEvents, numEpochs⟩)

/-- Embedding of `np.mean` over the collected returns (exact rational
arithmetic in place of floating point). -/
def npMean (l : List ℚ) : ℚ := l.sum / (l.length : ℚ)

/-- Embedding of the variance underlying `np.std`. -/
def npVar (l : List ℚ) : ℚ := (l.map (fun x => (x - npMean l) ^ 2)).sum / (l.length : ℚ)

/-- Embedding of `np.std`: the square root of the population variance. -/
noncomputable def npStd (l : List ℚ) : ℝ := Real.sqrt (npVar l)

/-- Observable outcome of one `Trainer.collect_test` call (trainer.py
lines 383-406): the store is cleared first (line 388), the episode budget
is `num_final_episodes` when `final` else `num_episodes` (line 386), and
exactly in the final case the mean and standard deviation of the episode
returns are appended to the logs (line 403). -/
structure CollectTestResult where
  episodes_requested : Nat
  cleared_before : Bool
  final_return_mean : Option ℚ
  final_return_std : Option ℝ

/-- Embedding of `Trainer.collect_test`, abstracting the test collector
by the list of episode returns it produces. -/
noncomputable def collect_test_model (num_episodes num_final_episodes : Nat)
    (final : Bool) (returns : List ℚ) : CollectTestResult :=
  { episodes_requested := if final then num_final_episodes else num_episodes
    cleared_before := true
    final_return_mean := if final then some (npMean returns) else none
    final_return_std := if final then some (npStd returns) else none }

/-!  Helper lemmas  -/

instance : Std.Commutative Nat.max := ⟨Nat.max_comm⟩

instance : Std.Associative Nat.max := ⟨Nat.max_assoc⟩

/-- The running maximum of a list of naturals is bounded by its sum. -/
theorem foldr_max_le_sum : ∀ l : List Nat, l.foldr Nat.max 0 ≤ l.sum
  | [] => Nat.le_refl 0
  | a :: t => by
    simp only [List.foldr_cons, List.sum_cons]
    exact Nat.max_le.mpr ⟨Nat.le_add_right a t.sum,
      Nat.le_trans (foldr_max_le_sum t) (Nat.le_add_left t.sum a)⟩

/-- Dropping the last element of an ascending-sorted list of naturals
removes exactly its maximum from the sum. -/
theorem sorted_dropLast_sum :
    ∀ s : List Nat, List.Sorted (· ≤ ·) s →
      s.dropLast.sum = s.sum - s.foldr Nat.max 0
  | [], _ => rfl
  | [a], _ => by simp
  | a :: b :: t, h => by
    have hab : a ≤ b := (List.sorted_cons.mp h).1 b (List.mem_cons_self b t)
    have hs : List.Sorted (· ≤ ·) (b :: t) := (List.sorted_cons.mp h).2
    have ih := sorted_dropLast_sum (b :: t) hs
    have hM : a ≤ (b :: t).foldr Nat.max 0 :=
      Nat.le_trans hab (Nat.le_trans (Nat.le_max_left b (t.foldr Nat.max 0))
        (Nat.le_refl _))
    have hmax : Nat.max a ((b :: t).foldr Nat.max 0) = (b :: t).foldr Nat.max 0 :=
      Nat.max_eq_right hM
    have hmax2 : Nat.max a (Nat.max b (t.foldr Nat.max 0)) = Nat.max b (t.foldr Nat.max 0) := by
      simpa using hmax
    have hMsum : (b :: t).foldr Nat.max 0 ≤ (b :: t).sum := foldr_max_le_sum (b :: t)
    calc (a :: b :: t).dropLast.sum
        = a + (b :: t).dropLast.sum := by simp
      _ = a + ((b :: t).sum - (b :: t).foldr Nat.max 0) := by rw [ih]
      _ = a + (b :: t).sum - (b :: t).foldr Nat.max 0 := (Nat.add_sub_assoc hMsum a).symm
      _ = (a :: b :: t).sum - (a :: b :: t).foldr Nat.max 0 := by
          simp only [List.sum_cons, List.foldr_cons, hmax2]

/-- The minority-reward total computed by the code (sum of the sorted
histogram with its last entry dropped) is the histogram total minus its
largest bucket. -/
theorem minorityRew_eq_sum_sub_max (d : DatasetState) :
    minorityRew d = d.counts_rew.sum - d.counts_rew.foldr Nat.max 0 := by
  unfold minorityRew pySorted
  rw [sorted_dropLast_sum _ (List.sorted_insertionSort _ _),
    (List.perm_insertionSort (· ≤ ·) d.counts_rew).sum_eq,
    (List.perm_insertionSort (· ≤ ·) d.counts_rew).foldr_eq]

/-- The break condition of the initial-collection loop, characterized:
the sum of all reward buckets except the largest reached `threshold_rew`,
or a maximum step count is configured and was reached. -/
theorem stopInitial_iff (cfg : CollectionTrainCfg) (d : DatasetState) :
    stopInitial cfg d = true ↔
      (cfg.threshold_rew ≤ d.counts_rew.sum - d.counts_rew.foldr Nat.max 0 ∨
        ∃ mx, cfg.first_epoch_max = some mx ∧ mx ≤ d.num_steps) := by
  unfold stopInitial
  rw [minorityRew_eq_sum_sub_max]
  cases h : cfg.first_epoch_max <;> simp [h]

/-- Shape of a terminating run of the initial-collection loop: starting
after `i` calls with next size `s0`, it makes calls `i+1, …, n`, the
first sized `s0` and all later ones sized `steps_per_epoch`, stopping at
the first state satisfying the break condition. -/
theorem initialCollectLoop_spec (cfg : CollectionTrainCfg) (world : Nat → DatasetState) :
    ∀ fuel i s0 sizes n,
      initialCollectLoop cfg world fuel i s0 = some (sizes, n) →
      i < n ∧ sizes = s0 :: List.replicate (n - i - 1) cfg.steps_per_epoch ∧
        stopInitial cfg (world n) = true ∧
        ∀ m, i < m → m < n → stopInitial cfg (world m) = false
  | 0, i, s0, sizes, n => by intro h; exact absurd h (by simp [initialCollectLoop])
  | fuel + 1, i, s0, sizes, n => by
    intro h
    unfold initialCollectLoop at h
    by_cases hstop : stopInitial cfg (world (i + 1)) = true
    · rw [if_pos hstop] at h
      simp only [Option.some.injEq, Prod.mk.injEq] at h
      obtain ⟨rfl, rfl⟩ := h
      refine ⟨Nat.lt_succ_self i, by simp, hstop, ?_⟩
      intro m h1 h2
      omega
    · rw [if_neg hstop] at h
      cases hrec : initialCollectLoop cfg world fuel (i + 1) cfg.steps_per_epoch with
      | none => rw [hrec] at h; exact absurd h (by simp)
      | some p =>
        obtain ⟨sizes2, n2⟩ := p
        rw [hrec] at h
        simp only [Option.some.injEq, Prod.mk.injEq] at h
        obtain ⟨rfl, rfl⟩ := h
        obtain ⟨hlt, hshape, hstopn, hmid⟩ :=
          initialCollectLoop_spec cfg world fuel (i + 1) cfg.steps_per_epoch sizes2 n2 hrec
        refine ⟨Nat.lt_of_succ_lt hlt, ?_, hstopn, ?_⟩
        · rw [hshape]
          have : n2 - i - 1 = (n2 - (i + 1) - 1) + 1 := by omega
          rw [this, List.replicate_succ]
        · intro m h1 h2
          rcases Nat.lt_or_ge (i + 1) m with hm | hm
          · exact hmid m hm h2
          · have : m = i + 1 := by omega
            subst this
            exact Bool.not_eq_true _ ▸ (by simpa using hstop)

/-!  Theorems  -/

/-- Concrete configuration exhibiting the hardcoded epoch budget: a
model-free run with `num_final_epochs = 5`, whose configured budget is
`num_epochs_collect + num_final_epochs = 0 + 5 = 5` epochs. -/
def cfgEpochBudget : RunConfig :=
  { rank := 0, model_free := true, static_dataset := false, training_should := true
    num_final_epochs := 5, evaluation_should := false, evaluation_every := 1
    collection_train := ⟨0, none, 0, 1, 0⟩
    test_num_episodes := 3, test_num_final_episodes := 64
    denoiser := ⟨0, 0, 0, 1⟩, rew_end_model := ⟨0, 0, 0, 1⟩, actor_critic := ⟨0, 3, 4, 2⟩ }

/-- C1: the epoch loop of `run` does NOT execute
`num_epochs_collect + training.num_final_epochs` epochs: the computed
budget is overwritten by the hardcoded `num_epochs = 2` (trainer.py line
289), so a fresh model-free run configured for 0 + 5 = 5 epochs executes
exactly 2 epoch-loop iterations. -/
theorem run_epoch_budget_hardcoded_to_two :
    run_num_epochs 0 cfgEpochBudget.num_final_epochs = 2 ∧
    run_model cfgEpochBudget (fun _ => ⟨0, []⟩) 0 =
      some (Except.ok
        ⟨[Event.trainComp CompName.actor_critic 3,
          Event.trainComp CompName.actor_critic 4,
          Event.finalCollectTest 64], 2⟩) ∧
    (2 : Int) ≠ 0 + (cfgEpochBudget.num_final_epochs : Int) := by
  refine ⟨rfl, rfl, by decide⟩

set_option maxRecDepth 100000 in
/-- C2: `train_component` does NOT perform `grad_acc_steps * steps` loop
iterations: the computed budget is overwritten by the hardcoded
`num_steps = 1000` (trainer.py line 449).  With `grad_acc_steps = 4` and
`steps = 8` the computed budget is 32 but the loop runs 1000 iterations
and applies the optimizer step (and gradient zeroing and schedule
advance) 250 times, not twice; the `(i + 1) % grad_acc_steps == 0`
cadence itself is as specified. -/
theorem train_component_steps_hardcoded_to_1000 :
    train_component_model 4 8 =
      { computed_num_steps := 32, iterations := 1000, initial_zero_grad := true
        opt_step_count := 250, in_loop_zero_grad_count := 250
        lr_sched_step_count := 250 } ∧
    (train_component_model 4 8).iterations ≠ 4 * 8 ∧
    (train_component_model 4 8).opt_step_count ≠ 2 := by
  refine ⟨by decide, by decide, by decide⟩

/-- C3: `collect_initial_dataset` fails with the fatal configuration
error of the `assert min_steps % steps_per_epoch == 0` (trainer.py line
358) whenever the first-epoch minimum step count is not divisible by
`steps_per_epoch`, for every world and every fuel. -/
theorem collect_initial_rejects_indivisible_min_steps
    (cfg : CollectionTrainCfg) (world : Nat → DatasetState) (fuel : Nat)
    (h : cfg.first_epoch_min % cfg.steps_per_epoch ≠ 0) :
    collect_initial_dataset cfg world fuel =
      some (Except.error ConfigError.min_steps_not_divisible) := by
  simp [collect_initial_dataset, h]

/-- Configuration with `min_steps = 5` not divisible by
`steps_per_epoch = 2`. -/
def cfgIndivisible : CollectionTrainCfg := ⟨5, none, 10, 2, 100⟩

/-- Witness for C3 at `min_steps = 5`, `steps_per_epoch = 2`. -/
theorem collect_initial_rejects_indivisible_min_steps_witness :
    cfgIndivisible.first_epoch_min % cfgIndivisible.steps_per_epoch ≠ 0 ∧
    collect_initial_dataset cfgIndivisible (fun _ => ⟨0, []⟩) 0 =
      some (Except.error ConfigError.min_steps_not_divisible) :=
  ⟨by decide, collect_initial_rejects_indivisible_min_steps _ _ _ (by decide)⟩

/-- Successful runs of `collect_initial_dataset` decompose: the min-steps
assert passed, the loop terminated after `numCalls` calls, and the
returned record is built from the loop output and the final dataset
state. -/
theorem collect_initial_ok_elim (cfg : CollectionTrainCfg) (world : Nat → DatasetState)
    (fuel : Nat) (r : InitCollectResult)
    (hok : collect_initial_dataset cfg world fuel = some (Except.ok r)) :
    cfg.first_epoch_min % cfg.steps_per_epoch = 0 ∧
      initialCollectLoop cfg world fuel 0 cfg.first_epoch_min =
        some (r.collectSizes, r.numCalls) ∧
      r.finalState = world r.numCalls ∧
      ((cfg.num_steps_total : Int) - ((world r.numCalls).num_steps : Int)) %
          (cfg.steps_per_epoch : Int) = 0 ∧
      r.num_epochs_collect =
        ((cfg.num_steps_total : Int) - ((world r.numCalls).num_steps : Int)) /
          (cfg.steps_per_epoch : Int) := by
  unfold collect_initial_dataset at hok
  by_cases hdiv : cfg.first_epoch_min % cfg.steps_per_epoch ≠ 0
  · rw [if_pos hdiv] at hok
    exact absurd hok (by simp)
  · rw [if_neg hdiv] at hok
    cases hloop : initialCollectLoop cfg world fuel 0 cfg.first_epoch_min with
    | none => rw [hloop] at hok; exact absurd hok (by simp)
    | some p =>
      obtain ⟨sizes, n⟩ := p
      rw [hloop] at hok
      simp only at hok
      by_cases hrem : ((cfg.num_steps_total : Int) - ((world n).num_steps : Int)) %
          (cfg.steps_per_epoch : Int) ≠ 0
      · rw [if_pos hrem] at hok
        exact absurd hok (by simp)
      · rw [if_neg hrem] at hok
        simp only [Option.some.injEq, Except.ok.injEq] at hok
        subst hok
        exact ⟨Decidable.not_not.mp hdiv, hloop ▸ rfl, rfl, Decidable.not_not.mp hrem, rfl⟩

/-- C4: whenever `collect_initial_dataset` returns, its collector calls
were sized `min_steps` first and `steps_per_epoch` afterwards, and the
loop stopped exactly at the first observation whose minority-reward sum
(all reward buckets except the largest) reached `threshold_rew` or whose
total step count reached the configured maximum. -/
theorem collect_initial_increment_sizes_and_stop
    (cfg : CollectionTrainCfg) (world : Nat → DatasetState) (fuel : Nat)
    (r : InitCollectResult)
    (hok : collect_initial_dataset cfg world fuel = some (Except.ok r)) :
    r.collectSizes =
        cfg.first_epoch_min :: List.replicate (r.numCalls - 1) cfg.steps_per_epoch ∧
      1 ≤ r.numCalls ∧
      stopInitial cfg (world r.numCalls) = true ∧
      (∀ m, 1 ≤ m → m < r.numCalls → stopInitial cfg (world m) = false) ∧
      (∀ d : DatasetState, stopInitial cfg d = true ↔
        (cfg.threshold_rew ≤ d.counts_rew.sum - d.counts_rew.foldr Nat.max 0 ∨
          ∃ mx, cfg.first_epoch_max = some mx ∧ mx ≤ d.num_steps)) := by
  obtain ⟨-, hloop, -, -, -⟩ := collect_initial_ok_elim cfg world fuel r hok
  obtain ⟨hpos, hshape, hstop, hmid⟩ :=
    initialCollectLoop_spec cfg world fuel 0 cfg.first_epoch_min r.collectSizes r.numCalls hloop
  refine ⟨?_, hpos, hstop, fun m h1 h2 => hmid m h1 h2, fun d => stopInitial_iff cfg d⟩
  simpa using hshape

/-- Scenario B configuration: `min_steps = 2`, no maximum,
`threshold_rew = 10`, `steps_per_epoch = 1`, `num_steps_total = 200`. -/
def cfgScenarioB : CollectionTrainCfg := ⟨2, none, 10, 1, 200⟩

/-- Scenario B world: the first collect yields reward histogram
`{0: 100, 1: 5}` (105 steps), the second `{0: 120, 1: 12}` (125 steps). -/
def worldScenarioB : Nat → DatasetState := fun i =>
  if i ≤ 1 then ⟨105, [100, 5]⟩ else ⟨125, [120, 12]⟩

/-- Witness for C4 on Scenario B: minority sum 5 < 10 keeps collecting,
minority sum 12 ≥ 10 stops; call sizes are `[min_steps, steps_per_epoch]`. -/
theorem collect_initial_increment_sizes_and_stop_witness :
    collect_initial_dataset cfgScenarioB worldScenarioB 5 =
      some (Except.ok ⟨75, [2, 1], 2, ⟨125, [120, 12]⟩⟩) ∧
    (⟨75, [2, 1], 2, ⟨125, [120, 12]⟩⟩ : InitCollectResult).collectSizes =
      cfgScenarioB.first_epoch_min ::
        List.replicate ((⟨75, [2, 1], 2, ⟨125, [120, 12]⟩⟩ : InitCollectResult).numCalls - 1)
          cfgScenarioB.steps_per_epoch ∧
    stopInitial cfgScenarioB (worldScenarioB 2) = true ∧
    stopInitial cfgScenarioB (worldScenarioB 1) = false :=
  ⟨rfl,
    (collect_initial_increment_sizes_and_stop cfgScenarioB worldScenarioB 5 _ rfl).1,
    (collect_initial_increment_sizes_and_stop cfgScenarioB worldScenarioB 5 _ rfl).2.2.1,
    (collect_initial_increment_sizes_and_stop cfgScenarioB worldScenarioB 5 _ rfl).2.2.2.1 1
      (Nat.le_refl 1) (by decide)⟩

/-- C5: after the loop terminates with `n` collector calls, the returned
`num_epochs_collect` is `(num_steps_total - num_steps) // steps_per_epoch`
when the remainder divides evenly, and the call fails with the fatal
error of the assert at trainer.py line 378 otherwise. -/
theorem collect_initial_num_epochs_formula
    (cfg : CollectionTrainCfg) (world : Nat → DatasetState) (fuel : Nat)
    (sizes : List Nat) (n : Nat)
    (hdiv : cfg.first_epoch_min % cfg.steps_per_epoch = 0)
    (hloop : initialCollectLoop cfg world fuel 0 cfg.first_epoch_min = some (sizes, n)) :
    (((cfg.num_steps_total : Int) - ((world n).num_steps : Int)) %
        (cfg.steps_per_epoch : Int) = 0 →
      collect_initial_dataset cfg world fuel =
        some (Except.ok
          ⟨((cfg.num_steps_total : Int) - ((world n).num_steps : Int)) /
              (cfg.steps_per_epoch : Int), sizes, n, world n⟩)) ∧
    (((cfg.num_steps_total : Int) - ((world n).num_steps : Int)) %
        (cfg.steps_per_epoch : Int) ≠ 0 →
      collect_initial_dataset cfg world fuel =
        some (Except.error ConfigError.remaining_not_divisible)) := by
  unfold collect_initial_dataset
  rw [if_neg (by simp [hdiv]), hloop]
  constructor
  · intro hrem
    simp only
    rw [if_neg (by simp [hrem])]
  · intro hrem
    simp only
    rw [if_pos hrem]

/-- Witness for C5 on Scenario B: 200 − 125 = 75 remaining steps divide
evenly by `steps_per_epoch = 1`, giving `num_epochs_collect = 75`. -/
theorem collect_initial_num_epochs_formula_witness :
    cfgScenarioB.first_epoch_min % cfgScenarioB.steps_per_epoch = 0 ∧
    initialCollectLoop cfgScenarioB worldScenarioB 5 0 cfgScenarioB.first_epoch_min =
      some ([2, 1], 2) ∧
    collect_initial_dataset cfgScenarioB worldScenarioB 5 =
      some (Except.ok
        ⟨((cfgScenarioB.num_steps_total : Int) - ((worldScenarioB 2).num_steps : Int)) /
            (cfgScenarioB.steps_per_epoch : Int), [2, 1], 2, worldScenarioB 2⟩) :=
  ⟨by decide, rfl,
    (collect_initial_num_epochs_formula cfgScenarioB worldScenarioB 5 [2, 1] 2
      (by decide) rfl).1 (by decide)⟩

/-- Membership in a conditionally produced list. -/
theorem mem_ite_list {α : Type} {b : Prop} [Decidable b] {x : α} {l : List α} :
    x ∈ (if b then l else []) ↔ b ∧ x ∈ l := by
  by_cases hb : b <;> simp [hb]

/-- Events produced by `train_agent`: exactly one `train_component` call
per active component whose `start_after_epochs` threshold is passed, with
the first-epoch/later-epoch step budget. -/
theorem mem_train_agent_events_iff (cfg : RunConfig) (epoch : Nat) (ev : Event) :
    ev ∈ train_agent_events cfg epoch ↔
      ∃ c, c ∈ activeModelNames cfg.model_free ∧
        (componentCfg cfg c).start_after_epochs < epoch ∧
        ev = Event.trainComp c
          (if epoch = 1 then (componentCfg cfg c).steps_first_epoch
           else (componentCfg cfg c).steps_per_epoch) := by
  unfold train_agent_events
  simp only [List.mem_flatMap]
  constructor
  · rintro ⟨c, hc, hmem⟩
    rcases mem_ite_list.mp hmem with ⟨hlt, hm⟩
    rcases List.mem_singleton.mp hm with rfl
    exact ⟨c, hc, hlt, rfl⟩
  · rintro ⟨c, hc, hlt, rfl⟩
    exact ⟨c, hc, mem_ite_list.mpr ⟨hlt, List.mem_singleton.mpr rfl⟩⟩

/-- Events produced by `test_agent`: one `test_component` call per
evaluated component whose threshold is passed. -/
theorem mem_test_agent_events_iff (cfg : RunConfig) (epoch : Nat) (ev : Event) :
    ev ∈ test_agent_events cfg epoch ↔
      ∃ c, c ∈ (if cfg.model_free then ([] : List CompName)
          else [CompName.denoiser, CompName.rew_end_model]) ∧
        (componentCfg cfg c).start_after_epochs < epoch ∧ ev = Event.testComp c := by
  unfold test_agent_events
  simp only [List.mem_flatMap]
  constructor
  · rintro ⟨c, hc, hmem⟩
    rcases mem_ite_list.mp hmem with ⟨hlt, hm⟩
    rcases List.mem_singleton.mp hm with rfl
    exact ⟨c, hc, hlt, rfl⟩
  · rintro ⟨c, hc, hlt, rfl⟩
    exact ⟨c, hc, mem_ite_list.mpr ⟨hlt, List.mem_singleton.mpr rfl⟩⟩

/-- Events of one epoch-loop iteration, characterized by the four guarded
actions of the loop body. -/
theorem mem_epoch_events_iff (cfg : RunConfig) (nec : Int) (epoch : Nat) (ev : Event) :
    ev ∈ epoch_events cfg nec epoch ↔
      (cfg.rank = 0 ∧ cfg.model_free = false ∧ cfg.static_dataset = false ∧
        (epoch : Int) ≤ nec ∧
        ev = Event.collectTrain cfg.collection_train.steps_per_epoch) ∨
      (cfg.training_should = true ∧ ev ∈ train_agent_events cfg epoch) ∨
      (cfg.rank = 0 ∧ cfg.evaluation_should = true ∧ epoch % cfg.evaluation_every = 0 ∧
        cfg.static_dataset = false ∧ ev = Event.collectTest cfg.test_num_episodes) ∨
      (cfg.rank = 0 ∧ cfg.evaluation_should = true ∧ epoch % cfg.evaluation_every = 0 ∧
        cfg.model_free = false ∧ ev ∈ test_agent_events cfg epoch) := by
  unfold epoch_events should_test_model
  simp only [List.mem_append, mem_ite_list, List.mem_singleton, Bool.and_eq_true,
    beq_iff_eq, Bool.not_eq_true', decide_eq_true_eq]
  tauto

/-- C7: the evaluation trigger of the epoch loop fires exactly at epochs
divisible by `evaluation.every` (given rank 0 and evaluation enabled);
equivalently, the test-collection event of an epoch occurs iff the
dataset is not static and the epoch is divisible by `evaluation.every`;
over a 12-epoch range with `evaluation.every = 5` the trigger fires at
epochs 5 and 10 only. -/
theorem evaluation_cadence (cfg : RunConfig)
    (hr : cfg.rank = 0) (hs : cfg.evaluation_should = true) :
    (∀ epoch, should_test_model cfg epoch = true ↔ epoch % cfg.evaluation_every = 0) ∧
    (∀ nec epoch, Event.collectTest cfg.test_num_episodes ∈ epoch_events cfg nec epoch ↔
      (cfg.static_dataset = false ∧ epoch % cfg.evaluation_every = 0)) ∧
    (cfg.evaluation_every = 5 →
      (List.range' 1 12).filter (fun e => should_test_model cfg e) = [5, 10]) := by
  have h1 : ∀ epoch, should_test_model cfg epoch = true ↔ epoch % cfg.evaluation_every = 0 := by
    intro epoch
    unfold should_test_model
    simp [hr, hs]
  refine ⟨h1, ?_, ?_⟩
  · intro nec epoch
    rw [mem_epoch_events_iff]
    constructor
    · rintro (⟨_, _, _, _, h⟩ | ⟨_, h⟩ | ⟨_, _, hmod, hst, _⟩ | ⟨_, _, _, _, h⟩)
      · exact absurd h (by simp)
      · rcases (mem_train_agent_events_iff cfg epoch _).mp h with ⟨c, _, _, heq⟩
        exact absurd heq (by simp)
      · exact ⟨hst, hmod⟩
      · rcases (mem_test_agent_events_iff cfg epoch _).mp h with ⟨c, _, _, heq⟩
        exact absurd heq (by simp)
    · rintro ⟨hst, hmod⟩
      exact Or.inr (Or.inr (Or.inl ⟨hr, hs, hmod, hst, rfl⟩))
  · intro h5
    have hcongr : (List.range' 1 12).filter (fun e => should_test_model cfg e) =
        (List.range' 1 12).filter (fun e => e % 5 == 0) :=
      List.filter_congr (by
        intro e he
        unfold should_test_model
        simp [hr, hs, h5])
    rw [hcongr]
    rfl

/-- Configuration for the cadence witness: rank 0, evaluation enabled
every 5 epochs. -/
def cfgEvalCadence : RunConfig :=
  { rank := 0, model_free := false, static_dataset := false, training_should := true
    num_final_epochs := 1, evaluation_should := true, evaluation_every := 5
    collection_train := ⟨0, none, 0, 1, 0⟩
    test_num_episodes := 4, test_num_final_episodes := 16
    denoiser := ⟨0, 1, 1, 1⟩, rew_end_model := ⟨0, 1, 1, 1⟩, actor_critic := ⟨0, 1, 1, 1⟩ }

/-- Witness for C7: with `evaluation.every = 5`, the trigger over epochs
1..12 fires exactly at 5 and 10. -/
theorem evaluation_cadence_witness :
    cfgEvalCadence.rank = 0 ∧ cfgEvalCadence.evaluation_should = true ∧
    (should_test_model cfgEvalCadence 10 = true ↔ 10 % cfgEvalCadence.evaluation_every = 0) ∧
    (List.range' 1 12).filter (fun e => should_test_model cfgEvalCadence e) = [5, 10] :=
  ⟨rfl, rfl, (evaluation_cadence cfgEvalCadence rfl rfl).1 10,
    (evaluation_cadence cfgEvalCadence rfl rfl).2.2 rfl⟩

/-- Model-free configuration in which the denoiser's
`start_after_epochs = 0` threshold is passed at epoch 2, yet
`train_agent` does not train it. -/
def cfgModelFreeGate : RunConfig :=
  { rank := 0, model_free := true, static_dataset := false, training_should := true
    num_final_epochs := 1, evaluation_should := false, evaluation_every := 1
    collection_train := ⟨0, none, 0, 1, 0⟩
    test_num_episodes := 1, test_num_final_episodes := 1
    denoiser := ⟨0, 3, 4, 1⟩, rew_end_model := ⟨0, 3, 4, 1⟩, actor_critic := ⟨0, 5, 6, 1⟩ }

/-- Counterexample to C6 as stated: in a model-free run the epoch-2
`train_agent` call trains only the actor-critic, so the denoiser is not
trained even though epoch 2 is strictly greater than its
`start_after_epochs = 0` — the claimed if-and-only-if fails. -/
theorem train_agent_gate_model_free_counterexample :
    cfgModelFreeGate.model_free = true ∧
    (componentCfg cfgModelFreeGate CompName.denoiser).start_after_epochs < 2 ∧
    train_agent_events cfgModelFreeGate 2 = [Event.trainComp CompName.actor_critic 6] ∧
    ¬ ((∃ s, Event.trainComp CompName.denoiser s ∈ train_agent_events cfgModelFreeGate 2) ↔
        (componentCfg cfgModelFreeGate CompName.denoiser).start_after_epochs < 2) := by
  refine ⟨rfl, by decide, rfl, fun h => ?_⟩
  obtain ⟨s, hs⟩ := h.mpr (by decide)
  rw [show train_agent_events cfgModelFreeGate 2 =
      [Event.trainComp CompName.actor_critic 6] from rfl] at hs
  simp at hs

/-- C6 amended: in a run that is NOT model-free, `train_agent` invokes
`train_component` for a component iff the current epoch is strictly
greater than its `start_after_epochs`, with step budget
`steps_first_epoch` at epoch 1 and `steps_per_epoch` afterwards (in a
model-free run only the actor-critic is subject to this rule). -/
theorem train_agent_gate_amended (cfg : RunConfig) (epoch : Nat) (name : CompName) (s : Nat)
    (hmf : cfg.model_free = false) :
    Event.trainComp name s ∈ train_agent_events cfg epoch ↔
      ((componentCfg cfg name).start_after_epochs < epoch ∧
        s = if epoch = 1 then (componentCfg cfg name).steps_first_epoch
            else (componentCfg cfg name).steps_per_epoch) := by
  rw [mem_train_agent_events_iff]
  constructor
  · rintro ⟨c, hc, hlt, heq⟩
    obtain ⟨rfl, rfl⟩ : name = c ∧
        s = (if epoch = 1 then (componentCfg cfg c).steps_first_epoch
             else (componentCfg cfg c).steps_per_epoch) := by
      simpa using heq
    exact ⟨hlt, rfl⟩
  · rintro ⟨hlt, rfl⟩
    refine ⟨name, ?_, hlt, rfl⟩
    unfold activeModelNames
    rw [hmf]
    cases name <;> simp

/-- Non-model-free configuration for the amended-C6 witness. -/
def cfgGateFull : RunConfig :=
  { cfgModelFreeGate with model_free := false }

/-- Witness for the amended C6: at epoch 2 the denoiser (threshold 0) is
trained with its `steps_per_epoch = 4` budget. -/
theorem train_agent_gate_amended_witness :
    cfgGateFull.model_free = false ∧
    (Event.trainComp CompName.denoiser 4 ∈ train_agent_events cfgGateFull 2 ↔
      ((componentCfg cfgGateFull CompName.denoiser).start_after_epochs < 2 ∧
        4 = if 2 = 1 then (componentCfg cfgGateFull CompName.denoiser).steps_first_epoch
            else (componentCfg cfgGateFull CompName.denoiser).steps_per_epoch)) :=
  ⟨rfl, train_agent_gate_amended cfgGateFull 2 CompName.denoiser 4 rfl⟩

/-- Successful runs of `run` decompose into the rank-0 initial-collection
events, the epoch-loop events for epochs `1 .. num_epochs`, and the
guarded final test collection. -/
theorem run_model_ok_shape (cfg : RunConfig) (world : Nat → DatasetState) (fuel : Nat)
    (r : RunResult) (hrun : run_model cfg world fuel = some (Except.ok r)) :
    ∃ (nec : Int) (initSizes : List Nat),
      r.events = (if cfg.rank == 0 then initSizes.map Event.collectTrain else []) ++
        (List.range' 1 (run_num_epochs nec cfg.num_final_epochs)).flatMap
          (epoch_events cfg nec) ++
        (if (cfg.rank == 0) && !cfg.static_dataset then
          [Event.finalCollectTest cfg.test_num_final_episodes] else []) ∧
      r.epochs_run = run_num_epochs nec cfg.num_final_epochs := by
  unfold run_model at hrun
  by_cases hinit : (cfg.model_free || cfg.static_dataset) = true
  · rw [if_pos hinit] at hrun
    simp only [Option.some.injEq, Except.ok.injEq] at hrun
    subst hrun
    exact ⟨0, [], by simp, rfl⟩
  · rw [if_neg hinit] at hrun
    cases hci : collect_initial_dataset cfg.collection_train world fuel with
    | none => rw [hci] at hrun; exact absurd hrun (by simp)
    | some res =>
      cases res with
      | error e => rw [hci] at hrun; exact absurd hrun (by simp)
      | ok ir =>
        rw [hci] at hrun
        simp only [Option.some.injEq, Except.ok.injEq] at hrun
        subst hrun
        exact ⟨ir.num_epochs_collect, ir.collectSizes, rfl, rfl⟩

/-- C8: after the epoch loop, a non-static rank-0 run performs exactly
one final test collection — the last event of the trace, budgeted with
`num_final_episodes` — and it is the only final collection in the trace;
the hypotheses place no constraint on `evaluation.every`, so this is
independent of the evaluation cadence.  The final `collect_test` call
logs the mean and the standard deviation of the collected episode
returns. -/
theorem final_test_collection (cfg : RunConfig) (world : Nat → DatasetState) (fuel : Nat)
    (r : RunResult) (hr : cfg.rank = 0) (hst : cfg.static_dataset = false)
    (hrun : run_model cfg world fuel = some (Except.ok r)) :
    (∃ pre, r.events = pre ++ [Event.finalCollectTest cfg.test_num_final_episodes] ∧
      ∀ n, Event.finalCollectTest n ∉ pre) ∧
    ∀ returns,
      collect_test_model cfg.test_num_episodes cfg.test_num_final_episodes true returns =
        ⟨cfg.test_num_final_episodes, true, some (npMean returns), some (npStd returns)⟩ := by
  obtain ⟨nec, sizes, hev, -⟩ := run_model_ok_shape cfg world fuel r hrun
  constructor
  · refine ⟨(if cfg.rank == 0 then sizes.map Event.collectTrain else []) ++
      (List.range' 1 (run_num_epochs nec cfg.num_final_epochs)).flatMap
        (epoch_events cfg nec), ?_, ?_⟩
    · rw [hev, if_pos (show ((cfg.rank == 0) && !cfg.static_dataset) = true by
        simp [hr, hst]), List.append_assoc]
    · intro n hn
      rcases List.mem_append.mp hn with hn | hn
      · by_cases hb : (cfg.rank == 0) = true
        · rw [if_pos hb] at hn
          rcases List.mem_map.mp hn with ⟨s, -, heq⟩
          exact absurd heq (by simp)
        · rw [if_neg hb] at hn
          simp at hn
      · rcases List.mem_flatMap.mp hn with ⟨e, -, he⟩
        rcases (mem_epoch_events_iff cfg nec e _).mp he with
          (⟨-, -, -, -, h⟩ | ⟨-, h⟩ | ⟨-, -, -, -, h⟩ | ⟨-, -, -, -, h⟩)
        · exact absurd h (by simp)
        · rcases (mem_train_agent_events_iff cfg e _).mp h with ⟨c, -, -, heq⟩
          exact absurd heq (by simp)
        · exact absurd h (by simp)
        · rcases (mem_test_agent_events_iff cfg e _).mp h with ⟨c, -, -, heq⟩
          exact absurd heq (by simp)
  · intro returns
    rfl

/-- Witness for C8 on the concrete model-free run: the trace ends in the
single final test collection and the final `collect_test` logs mean and
standard deviation of the returns `[1, 3]`. -/
theorem final_test_collection_witness :
    cfgEpochBudget.rank = 0 ∧ cfgEpochBudget.static_dataset = false ∧
    (∃ pre, (⟨[Event.trainComp CompName.actor_critic 3,
        Event.trainComp CompName.actor_critic 4,
        Event.finalCollectTest 64], 2⟩ : RunResult).events =
        pre ++ [Event.finalCollectTest cfgEpochBudget.test_num_final_episodes] ∧
      ∀ n, Event.finalCollectTest n ∉ pre) ∧
    collect_test_model cfgEpochBudget.test_num_episodes
        cfgEpochBudget.test_num_final_episodes true [1, 3] =
      ⟨cfgEpochBudget.test_num_final_episodes, true, some (npMean [1, 3]),
        some (npStd [1, 3])⟩ :=
  ⟨rfl, rfl,
    (final_test_collection cfgEpochBudget (fun _ => ⟨0, []⟩) 0 _ rfl rfl rfl).1,
    (final_test_collection cfgEpochBudget (fun _ => ⟨0, []⟩) 0 _ rfl rfl rfl).2 [1, 3]⟩

/-- C9: on any rank other than 0, every event of a completed run is a
`train_component` invocation — no train collection, no test collection,
no final collection, and no evaluation ever happens off rank 0. -/
theorem nonzero_rank_only_trains (cfg : RunConfig) (world : Nat → DatasetState)
    (fuel : Nat) (r : RunResult) (hr : cfg.rank ≠ 0)
    (hrun : run_model cfg world fuel = some (Except.ok r)) :
    ∀ ev ∈ r.events, ∃ c s, ev = Event.trainComp c s := by
  obtain ⟨nec, sizes, hev, -⟩ := run_model_ok_shape cfg world fuel r hrun
  have hb : (cfg.rank == 0) = false := beq_eq_false_iff_ne.mpr hr
  intro ev hmem
  rw [hev] at hmem
  simp only [hb, Bool.false_and, Bool.false_eq_true, if_false, List.nil_append,
    List.append_nil] at hmem
  rcases List.mem_flatMap.mp hmem with ⟨e, -, he⟩
  rcases (mem_epoch_events_iff cfg nec e _).mp he with
    (⟨h0, -⟩ | ⟨-, h⟩ | ⟨h0, -⟩ | ⟨h0, -⟩)
  · exact absurd h0 hr
  · rcases (mem_train_agent_events_iff cfg e _).mp h with ⟨c, -, -, heq⟩
    exact ⟨c, _, heq⟩
  · exact absurd h0 hr
  · exact absurd h0 hr

/-- Rank-1 variant of the model-free configuration. -/
def cfgRank1 : RunConfig := { cfgEpochBudget with rank := 1 }

/-- Witness for C9: the rank-1 run's whole trace consists of
`train_component` invocations only. -/
theorem nonzero_rank_only_trains_witness :
    cfgRank1.rank ≠ 0 ∧
    run_model cfgRank1 (fun _ => ⟨0, []⟩) 0 =
      some (Except.ok ⟨[Event.trainComp CompName.actor_critic 3,
        Event.trainComp CompName.actor_critic 4], 2⟩) ∧
    ∀ ev ∈ [Event.trainComp CompName.actor_critic 3,
        Event.trainComp CompName.actor_critic 4], ∃ c s, ev = Event.trainComp c s :=
  ⟨by decide, rfl,
    nonzero_rank_only_trains cfgRank1 (fun _ => ⟨0, []⟩) 0 _ (by decide) rfl⟩

/-- C10: in a model-free run, `train_component` is never invoked for any
component other than the actor-critic — neither within a `train_agent`
call nor anywhere in the whole run trace. -/
theorem model_free_trains_only_actor_critic (cfg : RunConfig) (epoch : Nat)
    (name : CompName) (s : Nat) (world : Nat → DatasetState) (fuel : Nat) (r : RunResult)
    (hmf : cfg.model_free = true) (hname : name ≠ CompName.actor_critic) :
    Event.trainComp name s ∉ train_agent_events cfg epoch ∧
    (run_model cfg world fuel = some (Except.ok r) →
      Event.trainComp name s ∉ r.events) := by
  have h1 : ∀ e, Event.trainComp name s ∉ train_agent_events cfg e := by
    intro e hmem
    rcases (mem_train_agent_events_iff cfg e _).mp hmem with ⟨c, hc, -, heq⟩
    rw [show activeModelNames cfg.model_free = [CompName.actor_critic] by
      unfold activeModelNames; rw [hmf]; rfl] at hc
    rcases List.mem_singleton.mp hc with rfl
    have heq2 : name = CompName.actor_critic ∧ s =
        (if e = 1 then (componentCfg cfg CompName.actor_critic).steps_first_epoch
         else (componentCfg cfg CompName.actor_critic).steps_per_epoch) := by
      simpa using heq
    exact hname heq2.1
  refine ⟨h1 epoch, fun hrun hmem => ?_⟩
  obtain ⟨nec, sizes, hev, -⟩ := run_model_ok_shape cfg world fuel r hrun
  rw [hev] at hmem
  rcases List.mem_append.mp hmem with hm | hm
  · rcases List.mem_append.mp hm with hm | hm
    · by_cases hb : (cfg.rank == 0) = true
      · rw [if_pos hb] at hm
        rcases List.mem_map.mp hm with ⟨st, -, heq⟩
        exact absurd heq (by simp)
      · rw [if_neg hb] at hm
        simp at hm
    · rcases List.mem_flatMap.mp hm with ⟨e, -, he⟩
      rcases (mem_epoch_events_iff cfg nec e _).mp he with
        (⟨-, -, -, -, h⟩ | ⟨-, h⟩ | ⟨-, -, -, -, h⟩ | ⟨-, -, -, -, h⟩)
      · exact absurd h (by simp)
      · exact h1 e h
      · exact absurd h (by simp)
      · rcases (mem_test_agent_events_iff cfg e _).mp h with ⟨c, -, -, heq⟩
        exact absurd heq (by simp)
  · by_cases hb : ((cfg.rank == 0) && !cfg.static_dataset) = true
    · rw [if_pos hb] at hm
      rcases List.mem_singleton.mp hm with heq
      exact absurd heq (by simp)
    · rw [if_neg hb] at hm
      simp at hm

/-- Witness for C10 on the model-free configuration: the denoiser is
never trained, neither by the epoch-2 `train_agent` call nor anywhere in
the run trace. -/
theorem model_free_trains_only_actor_critic_witness :
    cfgModelFreeGate.model_free = true ∧ CompName.denoiser ≠ CompName.actor_critic ∧
    Event.trainComp CompName.denoiser 4 ∉ train_agent_events cfgModelFreeGate 2 ∧
    (run_model cfgModelFreeGate (fun _ => ⟨0, []⟩) 0 =
        some (Except.ok ⟨[Event.trainComp CompName.actor_critic 5,
          Event.trainComp CompName.actor_critic 6, Event.finalCollectTest 1], 2⟩) →
      Event.trainComp CompName.denoiser 4 ∉
        (⟨[Event.trainComp CompName.actor_critic 5,
          Event.trainComp CompName.actor_critic 6,
          Event.finalCollectTest 1], 2⟩ : RunResult).events) :=
  ⟨rfl, by decide,
    (model_free_trains_only_actor_critic cfgModelFreeGate 2 CompName.denoiser 4
      (fun _ => ⟨0, []⟩) 0
      ⟨[Event.trainComp CompName.actor_critic 5,
        Event.trainComp CompName.actor_critic 6, Event.finalCollectTest 1], 2⟩
      rfl (by decide)).1,
    (model_free_trains_only_actor_critic cfgModelFreeGate 2 CompName.denoiser 4
      (fun _ => ⟨0, []⟩) 0
      ⟨[Event.trainComp CompName.actor_critic 5,
        Event.trainComp CompName.actor_critic 6, Event.finalCollectTest 1], 2⟩
      rfl (by decide)).2⟩

end Diamond
